import Mathlib

/-!
Verification of the ingestion-and-pairing engine of the e-govXLSTtoPDF
repository (src/viewer.js, with the React variant in src/background.js).

The development shallowly embeds:
  * `decompressZip` (viewer.js lines 1-57): the streaming ZIP local-file-header
    walker.  Byte buffers are `List Nat`; `DataView.getUint16/getUint32` become
    `getU16`/`getU32` returning `Option Nat` (a `none` is the RangeError the
    host DataView throws on an out-of-bounds read).  The raw-deflate decoder
    (`DecompressionStream`, external to the repository) is a parameter
    `inflate : List Nat → Except String (List Nat)`; a rejected decompression
    surfaces as `ZipErr.decompressError`.  The two `while` loops are embedded
    with a fuel argument; the fuel `buf.length + 1` strictly dominates the
    number of iterations, since the offset advances by at least one byte per
    inner step and at least 30 bytes per header.
  * `addFilesToStorage` (viewer.js lines 180-324) and the ambient state
    (viewer.js lines 174-178): deduplication by `fileKey`, ZIP-source
    expansion, extension classification, the XSL cache with last-write-wins,
    the pending XML pool, and the drain of the pool for newly arrived XSL
    basenames.  `DOMParser`-based field extraction (the XSL title, viewer.js
    lines 238-242, and the organization name, lines 251-266) is abstracted as
    parameters `eT eO : FSFile → String`, and ZIP expansion inside a batch as
    `unzip : FSFile → List FSFile`; the claims checked here involve no
    archive members, so only the control flow around these calls matters.
    `Date.now()` is the parameter `now`.
  * the clear actions of `showPair` (viewer.js lines 363-369) and of the list
    view (viewer.js lines 737-742 and 760-766).
  * the batch classification of the React variant
    (src/background.js, `addFilesToStorage`, lines 345-351), which lowercases
    the file name before the extension test.
-/

/-! ## String constants used in expression position -/

def extXml : String := ".xml"

def extXsl : String := ".xsl"

def extZip : String := ".zip"

def slashS : String := "/"

def stZip : String := "zip"

def stFolder : String := "folder"

def stDirect : String := "direct"

/-! ## Kernel-computable string helpers

The host string primitives the source relies on (`endsWith`, `split`,
`toLowerCase`, number-to-string coercion) are embedded on the character
level so that concrete runs reduce inside the kernel. -/

/-- JS `s.endsWith(suffix)`. -/
def strEndsWith (s suffix : String) : Bool :=
  List.isSuffixOf suffix.data s.data

/-- Remove the last `n` characters, as `replace(/....$/ ,'')` does once the
suffix is known to be present. -/
def strDropRight (s : String) (n : Nat) : String :=
  String.mk (s.data.take (s.data.length - n))

/-- JS `path.split('/')` on the character level. -/
def splitSlash : List Char → List (List Char)
  | [] => [[]]
  | c :: rest =>
    match splitSlash rest with
    | [] => [[c]]
    | h :: t => if c = '/' then [] :: h :: t else (c :: h) :: t

def digitChar (d : Nat) : Char := Char.ofNat (48 + d)

def natDigitsAux : Nat → Nat → List Char
  | 0, _ => []
  | fuel + 1, n =>
    if n < 10 then [digitChar n]
    else natDigitsAux fuel (n / 10) ++ [digitChar (n % 10)]

/-- JS number-to-string coercion for the natural numbers appearing in
template strings. -/
def natToStr (n : Nat) : String := String.mk (natDigitsAux (n + 1) n)

/-- JS `toLowerCase` restricted to ASCII (every name exercised by the claims
is ASCII). -/
def lowerChar (c : Char) : Char :=
  if 65 ≤ c.toNat && c.toNat ≤ 90 then Char.ofNat (c.toNat + 32) else c

def strToLower (s : String) : String := String.mk (s.data.map lowerChar)

/-! ## The ZIP reader (viewer.js lines 1-57) -/

structure ZipMember where
  name : List Nat
  data : List Nat

inductive ZipErr where
  | rangeError
  | decompressError (msg : String)

/-- `DataView.getUint16(i, true)` over a byte list; `none` models the
RangeError thrown when fewer than 2 bytes remain. -/
def getU16 (buf : List Nat) (i : Nat) : Option Nat :=
  match buf[i]?, buf[i + 1]? with
  | some b0, some b1 => some (b0 + b1 * 256)
  | _, _ => none

/-- `DataView.getUint32(i, true)` over a byte list; `none` models the
RangeError thrown when fewer than 4 bytes remain. -/
def getU32 (buf : List Nat) (i : Nat) : Option Nat :=
  match buf[i]?, buf[i + 1]?, buf[i + 2]?, buf[i + 3]? with
  | some b0, some b1, some b2, some b3 =>
      some (b0 + b1 * 256 + b2 * 65536 + b3 * 16777216)
  | _, _, _, _ => none

/-- `pathName.replace(/.*\//, "")` on the byte level: keep the segment after
the last 47 (the UTF-8 code of the slash). -/
def stripDirs (bytes : List Nat) : List Nat :=
  ((bytes.reverse.takeWhile (fun b => b ≠ 47))).reverse

/-- The inner data-descriptor scan (viewer.js lines 35-43).  Returns
`ok (some (compressedSize, newOffset))` when the signature 0x08074b50 is
found, `ok none` when the loop condition fails before any read, and
`error rangeError` when a 4-byte read goes past the end of the buffer. -/
def scanDD (buf : List Nat) : Nat → Nat → Except ZipErr (Option (Nat × Nat))
  | 0, _ => Except.ok none
  | fuel + 1, offset =>
    if offset < buf.length then
      match getU32 buf offset with
      | none => Except.error ZipErr.rangeError
      | some w =>
        if w = 134695760 then
          match getU32 buf (offset + 8) with
          | none => Except.error ZipErr.rangeError
          | some sz => Except.ok (some (sz, offset + 16))
        else scanDD buf fuel (offset + 1)
    else Except.ok none

/-- The outer header walk of `decompressZip` (viewer.js lines 20-55).
When the descriptor scan exhausts the buffer without finding the signature
(`ok none`), the source falls through to the member-emission step with the
compressed size still taken from the header, and the outer `while` condition
then fails; `max dataOffset buf.length` reproduces that final offset. -/
def zipWalk (inflate : List Nat → Except String (List Nat)) (buf : List Nat) :
    Nat → Nat → List ZipMember → Except ZipErr (List ZipMember)
  | 0, _, files => Except.ok files
  | fuel + 1, offset, files =>
    if offset < buf.length then
      match getU32 buf offset with
      | none => Except.error ZipErr.rangeError
      | some signature =>
        if signature = 67324752 then
          match getU16 buf (offset + 6) with
          | none => Except.error ZipErr.rangeError
          | some gpFlag =>
            match getU16 buf (offset + 26) with
            | none => Except.error ZipErr.rangeError
            | some fnLen =>
              match getU16 buf (offset + 28) with
              | none => Except.error ZipErr.rangeError
              | some efLen =>
                match getU32 buf (offset + 18) with
                | none => Except.error ZipErr.rangeError
                | some hdrSize =>
                  let pathName := (buf.drop (offset + 30)).take fnLen
                  let dataOffset := offset + fnLen + efLen + 30
                  let afterData : Except ZipErr (Nat × Nat) :=
                    if gpFlag.land 8 ≠ 0 then
                      match scanDD buf (buf.length + 1) dataOffset with
                      | Except.error e => Except.error e
                      | Except.ok (some r) => Except.ok (r.1, r.2)
                      | Except.ok none => Except.ok (hdrSize, max dataOffset buf.length)
                    else Except.ok (hdrSize, dataOffset + hdrSize)
                  match afterData with
                  | Except.error e => Except.error e
                  | Except.ok szOff =>
                    if pathName.getLast? ≠ some 47 then
                      match inflate ((buf.drop dataOffset).take szOff.1) with
                      | Except.error s => Except.error (ZipErr.decompressError s)
                      | Except.ok d =>
                          zipWalk inflate buf fuel szOff.2
                            (files ++ [ZipMember.mk (stripDirs pathName) d])
                    else zipWalk inflate buf fuel szOff.2 files
        else Except.ok files
    else Except.ok files

/-- `decompressZip` (viewer.js lines 1-57), parametric in the raw-deflate
decoder. -/
def decompressZip (inflate : List Nat → Except String (List Nat))
    (buf : List Nat) : Except ZipErr (List ZipMember) :=
  zipWalk inflate buf (buf.length + 1) 0 []

/-- A decoder that accepts every payload unchanged; used to instantiate
theorems whose statement does not depend on the decoded bytes. -/
def infOk : List Nat → Except String (List Nat) := fun p => Except.ok p

/-- A decoder that rejects exactly the payload `[0]` with message `e` and
accepts everything else; models a member whose compression method the
`deflate-raw` stream cannot handle while its sibling decodes fine. -/
def inflateFail (e : String) : List Nat → Except String (List Nat) :=
  fun p => if p = [0] then Except.error e else Except.ok p

/-- A 30-byte local file header: signature 0x04034b50, general-purpose flag
0x0008 (data-descriptor mode), zero compressed size, zero file-name length,
zero extra-field length. -/
def ddHeader : List Nat :=
  [80, 75, 3, 4, 0, 0, 8, 0, 0, 0, 0, 0, 0, 0, 0, 0, 0, 0,
   0, 0, 0, 0, 0, 0, 0, 0, 0, 0, 0, 0]

/-- A two-member archive: member `a` (name byte 97) with 1-byte payload `[0]`
and member `b` (name byte 98) with 1-byte payload `[1]`; both use known sizes
(no data descriptor). -/
def twoMemberZip : List Nat :=
  [80, 75, 3, 4, 0, 0, 0, 0, 0, 0, 0, 0, 0, 0, 0, 0, 0, 0,
   1, 0, 0, 0, 0, 0, 0, 0, 1, 0, 0, 0, 97, 0,
   80, 75, 3, 4, 0, 0, 0, 0, 0, 0, 0, 0, 0, 0, 0, 0, 0, 0,
   1, 0, 0, 0, 0, 0, 0, 0, 1, 0, 0, 0, 98, 1]

/-! ## The pairing engine (viewer.js lines 174-324) -/

/-- The observable part of a host `File` object: name, synthesized relative
path (empty string when absent, as in the source where the property is
falsy), byte size, last-modified timestamp, MIME type, and text content. -/
structure FSFile where
  name : String
  webkitRelativePath : String
  size : Nat
  lastModified : Nat
  ftype : String
  content : String
deriving DecidableEq

structure SourceInfo where
  sourceIndex : Nat
  sourceType : String
  sourceName : String
  folderName : Option String
deriving DecidableEq

structure ProcessedFile where
  file : FSFile
  info : SourceInfo
deriving DecidableEq

structure XslEntry where
  file : FSFile
  title : String
deriving DecidableEq

structure PendingXml where
  file : FSFile
  jigyoushoName : String
  sourceIndex : Nat
  sourceType : String
  sourceName : String
  folderName : Option String
deriving DecidableEq

structure PairData where
  basename : String
  xml : FSFile
  xsl : FSFile
  title : String
  jigyoushoName : String
  sourceInfo : SourceInfo
deriving DecidableEq

/-- The module-level mutable state of viewer.js (lines 174-178). -/
structure ViewerState where
  fileStorage : List (String × PairData)
  fileIdCounter : Nat
  xslCache : List (String × XslEntry)
  xmlPool : List (String × List PendingXml)
  processedFileKeys : List String
deriving DecidableEq

def initialState : ViewerState := ViewerState.mk [] 1 [] [] []

/-- Membership in the `processedFileKeys` set. -/
def listHas : List String → String → Bool
  | [], _ => false
  | k :: ks, s => if k = s then true else listHas ks s

/-- `Map.get`. -/
def mapGet {α : Type} : List (String × α) → String → Option α
  | [], _ => none
  | (k, v) :: rest, s => if k = s then some v else mapGet rest s

/-- `Map.set`: overwrite in place, else append (JS `Map` keeps the original
insertion position of an overwritten key). -/
def mapSet {α : Type} : List (String × α) → String → α → List (String × α)
  | [], k, v => [(k, v)]
  | (k0, v0) :: rest, k, v =>
      if k0 = k then (k, v) :: rest else (k0, v0) :: mapSet rest k v

/-- `Map.delete`. -/
def mapDelete {α : Type} : List (String × α) → String → List (String × α)
  | [], _ => []
  | (k0, v0) :: rest, k =>
      if k0 = k then rest else (k0, v0) :: mapDelete rest k

/-- viewer.js lines 183-189. -/
def extractFolderName (f : FSFile) : Option String :=
  if f.webkitRelativePath = "" then none
  else
    let parts := splitSlash f.webkitRelativePath.data
    if parts.length > 1 then some (String.mk (parts.headD [])) else none

/-- The deduplication key of viewer.js line 195. -/
def fileKey (f : FSFile) : String :=
  (if f.webkitRelativePath = "" then f.name else f.webkitRelativePath)
    ++ "_" ++ natToStr f.size ++ "_" ++ natToStr f.lastModified

/-- viewer.js line 201: MIME type `application/x-zip-compressed` or
`application/zip`, or a name ending in `.zip` (case-sensitive). -/
def isZipFile (f : FSFile) : Bool :=
  f.ftype = "application/x-zip-compressed" || f.ftype = "application/zip"
    || strEndsWith f.name extZip

/-- The deduplication-and-expansion loop of viewer.js lines 191-221. -/
def collectProcessed (unzip : FSFile → List FSFile) (keys : List String)
    (i : Nat) : List FSFile → List ProcessedFile × List String
  | [] => ([], keys)
  | f :: rest =>
    if listHas keys (fileKey f) then collectProcessed unzip keys (i + 1) rest
    else
      let keys1 := keys ++ [fileKey f]
      let tailRes := collectProcessed unzip keys1 (i + 1) rest
      if isZipFile f then
        ((unzip f).map (fun g =>
            ProcessedFile.mk g (SourceInfo.mk i stZip f.name (extractFolderName f)))
          ++ tailRes.1, tailRes.2)
      else
        (ProcessedFile.mk f
            (SourceInfo.mk i
              (if (extractFolderName f).isSome then stFolder else stDirect)
              f.name (extractFolderName f)) :: tailRes.1, tailRes.2)

/-- The classification of viewer.js lines 223-233: case-sensitive
`endsWith('.xml')` / `endsWith('.xsl')`.  Returns (xmlFiles, xslFiles). -/
def classifyFiles : List ProcessedFile → List ProcessedFile × List ProcessedFile
  | [] => ([], [])
  | item :: rest =>
    let acc := classifyFiles rest
    if strEndsWith item.file.name extXml then (item :: acc.1, acc.2)
    else if strEndsWith item.file.name extXsl then (acc.1, item :: acc.2)
    else acc

/-- The classification of the React variant (src/background.js lines
345-351): the name is lowercased before the extension test. -/
def classifyFilesReact :
    List ProcessedFile → List ProcessedFile × List ProcessedFile
  | [] => ([], [])
  | item :: rest =>
    let acc := classifyFilesReact rest
    if strEndsWith (strToLower item.file.name) extXml then (item :: acc.1, acc.2)
    else if strEndsWith (strToLower item.file.name) extXsl then (acc.1, item :: acc.2)
    else acc

/-- `name.replace(/\.xsl$/, '')` (viewer.js line 237): case-sensitive. -/
def stripXslExt (name : String) : String :=
  if strEndsWith name extXsl then strDropRight name 4 else name

/-- `name.replace(/\.xml$/, '')` (viewer.js line 248): case-sensitive. -/
def stripXmlExt (name : String) : String :=
  if strEndsWith name extXml then strDropRight name 4 else name

/-- The XSL loop of viewer.js lines 235-245: unconditional overwrite of the
basename-keyed cache, recording which basenames received an entry. -/
def processXslFiles (eT : FSFile → String) (cache : List (String × XslEntry))
    (newNames : List String) :
    List ProcessedFile → List (String × XslEntry) × List String
  | [] => (cache, newNames)
  | item :: rest =>
    let basename := stripXslExt item.file.name
    processXslFiles eT
      (mapSet cache basename (XslEntry.mk item.file (eT item.file)))
      (newNames ++ [basename]) rest

def mkUniqueKey (basename : String) (counter now : Nat) : String :=
  basename ++ "_" ++ natToStr counter ++ "_" ++ natToStr now

/-- The XML loop of viewer.js lines 247-297: pair immediately against a
cached XSL, otherwise append to the pending pool. -/
def processXmlFiles (eO : FSFile → String) (now : Nat)
    (cache : List (String × XslEntry)) :
    List ProcessedFile → List (String × PairData) → Nat →
    List (String × List PendingXml) →
    List (String × PairData) × Nat × List (String × List PendingXml)
  | [], storage, counter, pool => (storage, counter, pool)
  | item :: rest, storage, counter, pool =>
    let basename := stripXmlExt item.file.name
    let jig := eO item.file
    match mapGet cache basename with
    | some xslData =>
      processXmlFiles eO now cache rest
        (storage ++ [(mkUniqueKey basename counter now,
          PairData.mk basename item.file xslData.file xslData.title jig item.info)])
        (counter + 1) pool
    | none =>
      let entry := PendingXml.mk item.file jig item.info.sourceIndex
        item.info.sourceType item.info.sourceName item.info.folderName
      let pool1 :=
        match mapGet pool basename with
        | some lst => mapSet pool basename (lst ++ [entry])
        | none => mapSet pool basename [entry]
      processXmlFiles eO now cache rest storage counter pool1

/-- The pool drain of viewer.js lines 299-321: for each basename that
received a new XSL entry this batch, pair every pooled XML in queue order,
then delete the pool entry.  The source reads `xslCache.get(basename)`
unchecked; the `none` branch is unreachable because the basename was inserted
by the XSL loop of the same batch. -/
def drainPool (now : Nat) (cache : List (String × XslEntry)) :
    List String → List (String × PairData) → Nat →
    List (String × List PendingXml) →
    List (String × PairData) × Nat × List (String × List PendingXml)
  | [], storage, counter, pool => (storage, counter, pool)
  | basename :: rest, storage, counter, pool =>
    match mapGet pool basename with
    | some pooled =>
      if pooled.length > 0 then
        match mapGet cache basename with
        | some xslData =>
          let appended := pooled.foldl
            (fun (acc : List (String × PairData) × Nat) p =>
              (acc.1 ++ [(mkUniqueKey basename acc.2 now,
                PairData.mk basename p.file xslData.file xslData.title
                  p.jigyoushoName
                  (SourceInfo.mk p.sourceIndex p.sourceType p.sourceName
                    p.folderName))], acc.2 + 1))
            (storage, counter)
          drainPool now cache rest appended.1 appended.2 (mapDelete pool basename)
        | none => drainPool now cache rest storage counter pool
      else drainPool now cache rest storage counter pool
    | none => drainPool now cache rest storage counter pool

/-- Phases 2-5 of `addFilesToStorage` (classification, XSL loop, XML loop,
pool drain), applied to the already-deduplicated batch. -/
def addProcessed (eT eO : FSFile → String) (now : Nat) (s : ViewerState)
    (collected : List ProcessedFile × List String) : ViewerState :=
  let classified := classifyFiles collected.1
  let xslRes := processXslFiles eT s.xslCache [] classified.2
  let xmlRes := processXmlFiles eO now xslRes.1 classified.1
    s.fileStorage s.fileIdCounter s.xmlPool
  let drainRes := drainPool now xslRes.1 xslRes.2 xmlRes.1 xmlRes.2.1 xmlRes.2.2
  ViewerState.mk drainRes.1 drainRes.2.1 xslRes.1 drainRes.2.2 collected.2

/-- `addFilesToStorage` (viewer.js lines 180-324) as a state transformer. -/
def addFilesToStorage (eT eO : FSFile → String) (unzip : FSFile → List FSFile)
    (now : Nat) (s : ViewerState) (files : List FSFile) : ViewerState :=
  addProcessed eT eO now s (collectProcessed unzip s.processedFileKeys 0 files)

/-- Successive drop batches. -/
def runBatches (eT eO : FSFile → String) (unzip : FSFile → List FSFile)
    (now : Nat) (s : ViewerState) : List (List FSFile) → ViewerState
  | [] => s
  | b :: rest => runBatches eT eO unzip now (addFilesToStorage eT eO unzip now s b) rest

/-- The clear button of the full-page pair view (viewer.js lines 363-369):
resets the pair collection, the XSL cache and the XML pool, but not the
deduplication set. -/
def showPairClear (s : ViewerState) : ViewerState :=
  ViewerState.mk [] s.fileIdCounter [] [] s.processedFileKeys

/-- The clear actions of the list view (viewer.js lines 737-742 and 760-766):
also reset the deduplication set. -/
def renderUIClear (s : ViewerState) : ViewerState :=
  ViewerState.mk [] s.fileIdCounter [] [] []

/-! ## Concrete files used by the claims -/

def axml : FSFile := ⟨"A.xml", "", 10, 100, "text/xml", "xmlA"⟩

def axslV1 : FSFile := ⟨"A.xsl", "", 20, 200, "text/xml", "t1"⟩

def axslV2 : FSFile := ⟨"A.xsl", "", 30, 300, "text/xml", "t2"⟩

def bxml1 : FSFile := ⟨"B.xml", "", 11, 101, "text/xml", "x1"⟩

def bxml2 : FSFile := ⟨"B.xml", "", 12, 102, "text/xml", "x2"⟩

def bxsl : FSFile := ⟨"B.xsl", "", 13, 103, "text/xml", "ts"⟩

def aXmlUpper : FSFile := ⟨"A.XML", "", 14, 104, "text/xml", "c"⟩

def aLowerXml : FSFile := ⟨"a.xml", "", 15, 105, "text/xml", "c1"⟩

def aUpperXsl : FSFile := ⟨"A.xsl", "", 16, 106, "text/xml", "c2"⟩

/-- The extractors and expander used to instantiate closed statements: the
title and the organization name are read off the file's text content, and no
file in those statements is an archive. -/
def eTc : FSFile → String := fun f => f.content

def eOc : FSFile → String := fun _ => ""

def uzc : FSFile → List FSFile := fun _ => []

def msgBad : String := "bad"

/-! ## Helper lemmas: deduplication -/

lemma listHas_append_self (ks : List String) (a : String) :
    listHas (ks ++ [a]) a = true := by
  induction ks with
  | nil => simp [listHas]
  | cons k ks ih =>
    simp only [List.cons_append, listHas]
    split
    · rfl
    · exact ih

lemma collect_cons_mem (uz : FSFile → List FSFile) (ks : List String) (i : Nat)
    (f : FSFile) (rest : List FSFile) (h : listHas ks (fileKey f) = true) :
    collectProcessed uz ks i (f :: rest) = collectProcessed uz ks (i + 1) rest := by
  simp only [collectProcessed, h, if_true]

lemma collect_skip (uz : FSFile → List FSFile) (ks : List String) (i : Nat)
    (f : FSFile) (h : listHas ks (fileKey f) = true) :
    collectProcessed uz ks i [f] = ([], ks) := by
  rw [collect_cons_mem uz ks i f [] h]
  simp only [collectProcessed]

lemma collect_two (uz : FSFile → List FSFile) (ks : List String) (i : Nat)
    (f g : FSFile) (h : fileKey g = fileKey f) :
    collectProcessed uz ks i [f, g] = collectProcessed uz ks i [f] := by
  by_cases hf : listHas ks (fileKey f) = true
  · rw [collect_cons_mem uz ks i f [g] hf, collect_cons_mem uz ks i f [] hf,
      collect_cons_mem uz ks (i + 1) g [] (by rw [h]; exact hf)]
    simp only [collectProcessed]
  · have hf0 : listHas ks (fileKey f) = false := eq_false_of_ne_true hf
    simp only [collectProcessed, hf0, Bool.false_eq_true, if_false, h,
      listHas_append_self, if_true]

lemma addProcessed_nil (eT eO : FSFile → String) (now : Nat) (s : ViewerState) :
    addProcessed eT eO now s ([], s.processedFileKeys) = s := rfl

lemma addFiles_dup (eT eO : FSFile → String) (uz : FSFile → List FSFile)
    (now : Nat) (s : ViewerState) (f : FSFile)
    (h : listHas s.processedFileKeys (fileKey f) = true) :
    addFilesToStorage eT eO uz now s [f] = s := by
  unfold addFilesToStorage
  rw [collect_skip uz s.processedFileKeys 0 f h]
  exact addProcessed_nil eT eO now s

lemma collect_one_keys_has (uz : FSFile → List FSFile) (ks : List String)
    (i : Nat) (f : FSFile) :
    listHas (collectProcessed uz ks i [f]).2 (fileKey f) = true := by
  by_cases hf : listHas ks (fileKey f) = true
  · rw [collect_skip uz ks i f hf]; exact hf
  · have hf0 : listHas ks (fileKey f) = false := eq_false_of_ne_true hf
    simp only [collectProcessed, hf0, Bool.false_eq_true, if_false]
    split
    · exact listHas_append_self ks (fileKey f)
    · exact listHas_append_self ks (fileKey f)

lemma addFiles_keys (eT eO : FSFile → String) (uz : FSFile → List FSFile)
    (now : Nat) (s : ViewerState) (files : List FSFile) :
    (addFilesToStorage eT eO uz now s files).processedFileKeys
      = (collectProcessed uz s.processedFileKeys 0 files).2 := rfl

lemma addFiles_twice (eT eO : FSFile → String) (uz : FSFile → List FSFile)
    (now : Nat) (s : ViewerState) (f g : FSFile) (h : fileKey g = fileKey f) :
    addFilesToStorage eT eO uz now (addFilesToStorage eT eO uz now s [f]) [g]
      = addFilesToStorage eT eO uz now s [f] := by
  apply addFiles_dup
  rw [addFiles_keys, h]
  exact collect_one_keys_has uz s.processedFileKeys 0 f

/-! ## Helper lemmas: classification -/

lemma classify_chars (l : List ProcessedFile) :
    (classifyFiles l).1 = l.filter (fun it => strEndsWith it.file.name extXml)
    ∧ (classifyFiles l).2 = l.filter (fun it =>
        !strEndsWith it.file.name extXml && strEndsWith it.file.name extXsl) := by
  induction l with
  | nil => exact ⟨rfl, rfl⟩
  | cons item rest ih =>
    obtain ⟨ih1, ih2⟩ := ih
    by_cases hxml : strEndsWith item.file.name extXml = true
    · constructor
      · simp [classifyFiles, hxml, List.filter_cons, ih1]
      · simp [classifyFiles, hxml, List.filter_cons, ih2]
    · have hxml0 : strEndsWith item.file.name extXml = false := eq_false_of_ne_true hxml
      by_cases hxsl : strEndsWith item.file.name extXsl = true
      · constructor
        · simp [classifyFiles, hxml0, hxsl, List.filter_cons, ih1]
        · simp [classifyFiles, hxml0, hxsl, List.filter_cons, ih2]
      · have hxsl0 : strEndsWith item.file.name extXsl = false := eq_false_of_ne_true hxsl
        constructor
        · simp [classifyFiles, hxml0, hxsl0, List.filter_cons, ih1]
        · simp [classifyFiles, hxml0, hxsl0, List.filter_cons, ih2]

lemma classifyReact_chars (l : List ProcessedFile) :
    (classifyFilesReact l).1
      = l.filter (fun it => strEndsWith (strToLower it.file.name) extXml)
    ∧ (classifyFilesReact l).2 = l.filter (fun it =>
        !strEndsWith (strToLower it.file.name) extXml
          && strEndsWith (strToLower it.file.name) extXsl) := by
  induction l with
  | nil => exact ⟨rfl, rfl⟩
  | cons item rest ih =>
    obtain ⟨ih1, ih2⟩ := ih
    by_cases hxml : strEndsWith (strToLower item.file.name) extXml = true
    · constructor
      · simp [classifyFilesReact, hxml, List.filter_cons, ih1]
      · simp [classifyFilesReact, hxml, List.filter_cons, ih2]
    · have hxml0 : strEndsWith (strToLower item.file.name) extXml = false :=
        eq_false_of_ne_true hxml
      by_cases hxsl : strEndsWith (strToLower item.file.name) extXsl = true
      · constructor
        · simp [classifyFilesReact, hxml0, hxsl, List.filter_cons, ih1]
        · simp [classifyFilesReact, hxml0, hxsl, List.filter_cons, ih2]
      · have hxsl0 : strEndsWith (strToLower item.file.name) extXsl = false :=
          eq_false_of_ne_true hxsl
        constructor
        · simp [classifyFilesReact, hxml0, hxsl0, List.filter_cons, ih1]
        · simp [classifyFilesReact, hxml0, hxsl0, List.filter_cons, ih2]

/-! ## Helper lemmas: the ZIP walk -/

lemma getU32_none (buf : List Nat) (i : Nat) (h : buf.length < i + 4) :
    getU32 buf i = none := by
  have h3 : buf[i + 3]? = none := by
    rw [List.getElem?_eq_none_iff]; omega
  unfold getU32
  split <;> simp_all

lemma getU32_some_len (buf : List Nat) (i w : Nat) (h : getU32 buf i = some w) :
    i + 4 ≤ buf.length := by
  by_contra hc
  rw [getU32_none buf i (by omega)] at h
  exact Option.noConfusion h

lemma getU32_isSome (buf : List Nat) (i : Nat) (h : i + 4 ≤ buf.length) :
    (getU32 buf i).isSome = true := by
  unfold getU32
  rw [List.getElem?_eq_getElem (show i < buf.length by omega),
    List.getElem?_eq_getElem (show i + 1 < buf.length by omega),
    List.getElem?_eq_getElem (show i + 2 < buf.length by omega),
    List.getElem?_eq_getElem (show i + 3 < buf.length by omega)]
  rfl

lemma scanDD_err (buf : List Nat) (fuel off : Nat) (h1 : off < buf.length)
    (h2 : buf.length ≤ off + fuel)
    (h3 : ∀ k, off ≤ k → k + 4 ≤ buf.length → getU32 buf k ≠ some 134695760) :
    scanDD buf fuel off = Except.error ZipErr.rangeError := by
  induction fuel generalizing off with
  | zero => omega
  | succ n ih =>
    simp only [scanDD, h1, if_true]
    by_cases hb : off + 4 ≤ buf.length
    · obtain ⟨w, hw⟩ := Option.isSome_iff_exists.mp (getU32_isSome buf off hb)
      have hne : w ≠ 134695760 := by
        intro hcontra
        exact h3 off (le_refl off) hb (by rw [hw, hcontra])
      simp only [hw, hne, if_false]
      exact ih (off + 1) (by omega) (by omega) (fun k hk h4 => h3 k (by omega) h4)
    · rw [getU32_none buf off (by omega)]

lemma getU16_append_left (l1 l2 : List Nat) (i : Nat) (h : i + 2 ≤ l1.length) :
    getU16 (l1 ++ l2) i = getU16 l1 i := by
  unfold getU16
  rw [List.getElem?_append_left (by omega), List.getElem?_append_left (by omega)]

lemma getU32_append_left (l1 l2 : List Nat) (i : Nat) (h : i + 4 ≤ l1.length) :
    getU32 (l1 ++ l2) i = getU32 l1 i := by
  unfold getU32
  rw [List.getElem?_append_left (by omega), List.getElem?_append_left (by omega),
    List.getElem?_append_left (by omega), List.getElem?_append_left (by omega)]

lemma zipWalk_succ (inflate : List Nat → Except String (List Nat)) (buf : List Nat)
    (fuel offset : Nat) (files : List ZipMember) :
    zipWalk inflate buf (fuel + 1) offset files =
    (if offset < buf.length then
      match getU32 buf offset with
      | none => Except.error ZipErr.rangeError
      | some signature =>
        if signature = 67324752 then
          match getU16 buf (offset + 6) with
          | none => Except.error ZipErr.rangeError
          | some gpFlag =>
            match getU16 buf (offset + 26) with
            | none => Except.error ZipErr.rangeError
            | some fnLen =>
              match getU16 buf (offset + 28) with
              | none => Except.error ZipErr.rangeError
              | some efLen =>
                match getU32 buf (offset + 18) with
                | none => Except.error ZipErr.rangeError
                | some hdrSize =>
                  let pathName := (buf.drop (offset + 30)).take fnLen
                  let dataOffset := offset + fnLen + efLen + 30
                  let afterData : Except ZipErr (Nat × Nat) :=
                    if gpFlag.land 8 ≠ 0 then
                      match scanDD buf (buf.length + 1) dataOffset with
                      | Except.error e => Except.error e
                      | Except.ok (some r) => Except.ok (r.1, r.2)
                      | Except.ok none => Except.ok (hdrSize, max dataOffset buf.length)
                    else Except.ok (hdrSize, dataOffset + hdrSize)
                  match afterData with
                  | Except.error e => Except.error e
                  | Except.ok szOff =>
                    if pathName.getLast? ≠ some 47 then
                      match inflate ((buf.drop dataOffset).take szOff.1) with
                      | Except.error s => Except.error (ZipErr.decompressError s)
                      | Except.ok d =>
                          zipWalk inflate buf fuel szOff.2
                            (files ++ [ZipMember.mk (stripDirs pathName) d])
                    else zipWalk inflate buf fuel szOff.2 files
        else Except.ok files
    else Except.ok files) := rfl

/-! ## Claims -/

/-- Claim C1, counterexample.  With `A.xml`, then `A.xsl` v1, then `A.xsl` v2
in three successive batches (the title extractor reading the file content, so
v1 yields the title of v1 and v2 that of v2), the single resulting pair
carries the title extracted from v1, not the title extracted from v2 as the
claim states: the pair the drain of batch two created is never updated when
v2 later overwrites the cache. -/
theorem c1_pair_keeps_first_title_cex :
    ((runBatches eTc eOc uzc 0 initialState
        [[axml], [axslV1], [axslV2]]).fileStorage.map (fun kv => kv.2.title))
      = [eTc axslV1]
    ∧ ((runBatches eTc eOc uzc 0 initialState
        [[axml], [axslV1], [axslV2]]).fileStorage.map (fun kv => kv.2.title))
      ≠ [eTc axslV2] :=
  ⟨rfl, by decide⟩

/-- Claim C1, amended.  If `A.xml` arrives in one batch, `A.xsl` v1 in a
later batch and `A.xsl` v2 in a third (all three surviving deduplication),
then after the three batches exactly one pair with basename `A` exists, and
its title and XSL file are the ones of v1: the XSL cache is last-write-wins,
but a pair formed earlier is immutable, so v2 affects only pairs formed after
its arrival. -/
theorem c1_pair_keeps_first_title (eT eO : FSFile → String)
    (uz : FSFile → List FSFile) (now : Nat) :
    ((runBatches eT eO uz now initialState
        [[axml], [axslV1], [axslV2]]).fileStorage.map
      (fun kv => (kv.2.basename, kv.2.title, kv.2.xsl)))
      = [("A", eT axslV1, axslV1)] := rfl

/-- Claim C2.  Two XML files named `B.xml` (with distinct deduplication keys)
arriving before any `B.xsl` — in two separate batches, in one batch, or in
the opposite order — followed by one `B.xsl`, produce exactly two pairs with
basename `B`, in the relative order in which the two XML files arrived. -/
theorem c2_duplicate_xml_pairs_order (eT eO : FSFile → String)
    (uz : FSFile → List FSFile) (now : Nat) :
    ((runBatches eT eO uz now initialState
        [[bxml1], [bxml2], [bxsl]]).fileStorage.map
      (fun kv => (kv.2.basename, kv.2.xml, kv.2.xsl)))
      = [("B", bxml1, bxsl), ("B", bxml2, bxsl)]
    ∧ ((runBatches eT eO uz now initialState
        [[bxml1, bxml2], [bxsl]]).fileStorage.map
      (fun kv => (kv.2.basename, kv.2.xml, kv.2.xsl)))
      = [("B", bxml1, bxsl), ("B", bxml2, bxsl)]
    ∧ ((runBatches eT eO uz now initialState
        [[bxml2], [bxml1], [bxsl]]).fileStorage.map
      (fun kv => (kv.2.basename, kv.2.xml, kv.2.xsl)))
      = [("B", bxml2, bxsl), ("B", bxml1, bxsl)] :=
  ⟨rfl, rfl, rfl⟩

/-- Claim C3, counterexample.  viewer.js classifies with a case-sensitive
`endsWith('.xml')`: the file `A.XML` is classified neither as XML nor as XSL
(first conjunct), and consequently `A.XML` dropped together with `A.xsl` —
names identical up to extension case — produces no pair (third conjunct),
contradicting the claimed case-insensitive classification.  The React
variant's classifier does accept `A.XML` (second conjunct). -/
theorem c3_uppercase_ext_cex :
    classifyFiles [⟨aXmlUpper, ⟨0, stDirect, "A.XML", none⟩⟩] = ([], [])
    ∧ classifyFilesReact [⟨aXmlUpper, ⟨0, stDirect, "A.XML", none⟩⟩]
        = ([⟨aXmlUpper, ⟨0, stDirect, "A.XML", none⟩⟩], [])
    ∧ (runBatches eTc eOc uzc 0 initialState
        [[aXmlUpper, aUpperXsl]]).fileStorage = [] :=
  ⟨rfl, rfl, rfl⟩

/-- Claim C3, amended.  In viewer.js the batch is partitioned by a
case-sensitive extension test: the XML side is exactly the files whose names
end in the lowercase `.xml`, the XSL side exactly those ending in the
lowercase `.xsl` (and not `.xml`); files with any other capitalization of the
extension are ignored.  Only the React variant in background.js classifies
case-insensitively, by lowercasing the name before the same test. -/
theorem c3_classification_case_sensitive (l : List ProcessedFile) :
    (classifyFiles l).1 = l.filter (fun it => strEndsWith it.file.name extXml)
    ∧ (classifyFiles l).2 = l.filter (fun it =>
        !strEndsWith it.file.name extXml && strEndsWith it.file.name extXsl)
    ∧ (classifyFilesReact l).1
        = l.filter (fun it => strEndsWith (strToLower it.file.name) extXml)
    ∧ (classifyFilesReact l).2 = l.filter (fun it =>
        !strEndsWith (strToLower it.file.name) extXml
          && strEndsWith (strToLower it.file.name) extXsl) :=
  ⟨(classify_chars l).1, (classify_chars l).2,
    (classifyReact_chars l).1, (classifyReact_chars l).2⟩

/-- Claim C4.  The deduplication key is the relative path (or the name when
no relative path exists), an underscore, the byte size, an underscore, and
the last-modified timestamp; a file whose key equals that of an
already-processed file is silently skipped, both within one batch (second
conjunct) and across batches (third conjunct), so dropping the same file
twice yields exactly one ingested copy. -/
theorem c4_dedup_key_once (eT eO : FSFile → String) (uz : FSFile → List FSFile)
    (now : Nat) (s : ViewerState) (f g : FSFile) (h : fileKey g = fileKey f) :
    fileKey f = (if f.webkitRelativePath = "" then f.name else f.webkitRelativePath)
        ++ "_" ++ natToStr f.size ++ "_" ++ natToStr f.lastModified
    ∧ addFilesToStorage eT eO uz now s [f, g] = addFilesToStorage eT eO uz now s [f]
    ∧ addFilesToStorage eT eO uz now (addFilesToStorage eT eO uz now s [f]) [g]
        = addFilesToStorage eT eO uz now s [f] := by
  refine ⟨rfl, ?_, ?_⟩
  · unfold addFilesToStorage
    rw [collect_two uz s.processedFileKeys 0 f g h]
  · exact addFiles_twice eT eO uz now s f g h

/-- Claim C4, witness: dropping `A.xml` twice in one batch equals dropping it
once. -/
theorem c4_dedup_key_once_witness :
    addFilesToStorage eTc eOc uzc 0 initialState [axml, axml]
      = addFilesToStorage eTc eOc uzc 0 initialState [axml] :=
  (c4_dedup_key_once eTc eOc uzc 0 initialState axml axml rfl).2.1

/-- Claim C5, counterexample.  In the two-member archive, member `a` has
payload `[0]` and member `b` payload `[1]`.  With a decoder that rejects
`[0]`, `decompressZip` returns the error for the whole archive — the caller
receives no sibling member, although with an accepting decoder both members
are extracted (second conjunct).  The failure is therefore not confined to
the failing member. -/
theorem c5_member_failure_aborts_cex :
    decompressZip (inflateFail msgBad) twoMemberZip
      = Except.error (ZipErr.decompressError msgBad)
    ∧ decompressZip infOk twoMemberZip
      = Except.ok [⟨[97], [0]⟩, ⟨[98], [1]⟩] :=
  ⟨rfl, rfl⟩

/-- Claim C5, amended.  A member whose payload fails decompression aborts the
whole `decompressZip` call: the rejection propagates out of the per-entry
loop, so the caller receives a single whole-archive error and none of the
sibling members, even though with a decoder accepting every payload the same
archive yields both members. -/
theorem c5_member_failure_aborts (e : String) :
    decompressZip (inflateFail e) twoMemberZip
      = Except.error (ZipErr.decompressError e)
    ∧ decompressZip infOk twoMemberZip
      = Except.ok [⟨[97], [0]⟩, ⟨[98], [1]⟩] :=
  ⟨rfl, rfl⟩

/-- Claim C6, counterexample.  A local file header with bit 3 of the
general-purpose flag set, followed by five bytes that nowhere contain the
data-descriptor signature 0x08074b50 (second conjunct checks every offset),
makes `decompressZip` throw the DataView range error: the forward scan
reaches an offset with fewer than 4 bytes remaining and the unguarded 32-bit
read goes out of bounds, contradicting the claimed error-free termination. -/
theorem c6_missing_descriptor_throws_cex :
    decompressZip infOk (ddHeader ++ [0, 0, 0, 0, 0])
      = Except.error ZipErr.rangeError
    ∧ ((List.range 35).all
        (fun k => getU32 (ddHeader ++ [0, 0, 0, 0, 0]) k != some 134695760)) = true :=
  ⟨rfl, rfl⟩

/-- Claim C6, amended.  For an entry whose general-purpose flag has bit 3 set
and whose data-descriptor signature never appears in the rest of the buffer,
the forward scan does not terminate harmlessly: as soon as at least one byte
follows the header, the scan performs a 4-byte read past the end of the
buffer and `decompressZip` throws a RangeError, emitting no member at all
(the whole call fails). -/
theorem c6_missing_descriptor_throws (inflate : List Nat → Except String (List Nat))
    (tail : List Nat) (h1 : tail ≠ [])
    (h2 : ∀ k, 30 ≤ k → k + 4 ≤ 30 + tail.length →
      getU32 (ddHeader ++ tail) k ≠ some 134695760) :
    decompressZip inflate (ddHeader ++ tail) = Except.error ZipErr.rangeError := by
  have hdl : ddHeader.length = 30 := rfl
  have hlen : (ddHeader ++ tail).length = 30 + tail.length := by
    rw [List.length_append, hdl]
  have htl : 0 < tail.length := List.length_pos.mpr h1
  have h0 : 0 < (ddHeader ++ tail).length := by rw [hlen]; omega
  have r0 : getU32 (ddHeader ++ tail) 0 = some 67324752 := by
    rw [getU32_append_left _ _ _ (by omega)]; rfl
  have r6 : getU16 (ddHeader ++ tail) (0 + 6) = some 8 := by
    rw [getU16_append_left _ _ _ (by omega)]; rfl
  have r26 : getU16 (ddHeader ++ tail) (0 + 26) = some 0 := by
    rw [getU16_append_left _ _ _ (by omega)]; rfl
  have r28 : getU16 (ddHeader ++ tail) (0 + 28) = some 0 := by
    rw [getU16_append_left _ _ _ (by omega)]; rfl
  have r18 : getU32 (ddHeader ++ tail) (0 + 18) = some 0 := by
    rw [getU32_append_left _ _ _ (by omega)]; rfl
  have hscan : scanDD (ddHeader ++ tail) ((ddHeader ++ tail).length + 1)
      (0 + 0 + 0 + 30) = Except.error ZipErr.rangeError := by
    apply scanDD_err
    · rw [hlen]; omega
    · omega
    · intro k hk h4
      apply h2 k hk
      rw [hlen] at h4; exact h4
  have hland : ((8 : Nat).land 8 ≠ 0) := by decide
  show zipWalk inflate (ddHeader ++ tail) ((ddHeader ++ tail).length + 1) 0 [] = _
  rw [zipWalk_succ, if_pos h0]
  simp only [r0, r6, r26, r28, r18]
  simp only [if_true]
  rw [if_pos hland]
  simp only [hscan]

/-- Claim C6, witness: the amended theorem applied to the five-byte tail of
zero bytes. -/
theorem c6_missing_descriptor_throws_witness :
    decompressZip infOk (ddHeader ++ [0, 0, 0, 0, 0])
      = Except.error ZipErr.rangeError :=
  c6_missing_descriptor_throws infOk [0, 0, 0, 0, 0] (by decide)
    (by intro k hk h4; simp at h4; interval_cases k <;> decide)

/-- Claim C7.  Whenever the first four bytes of the buffer read as a 32-bit
little-endian word different from the local-file-header signature 0x04034b50,
`decompressZip` returns the empty member list and throws nothing. -/
theorem c7_bad_signature_empty (inflate : List Nat → Except String (List Nat))
    (buf : List Nat) (w : Nat) (h1 : getU32 buf 0 = some w)
    (h2 : w ≠ 67324752) : decompressZip inflate buf = Except.ok [] := by
  have h4 : 0 + 4 ≤ buf.length := getU32_some_len buf 0 w h1
  have h0 : 0 < buf.length := by omega
  show zipWalk inflate buf (buf.length + 1) 0 [] = _
  rw [zipWalk_succ, if_pos h0]
  simp only [h1, h2, if_false]

/-- Claim C7, witness: a four-byte all-zero buffer yields the empty list. -/
theorem c7_bad_signature_empty_witness :
    decompressZip infOk [0, 0, 0, 0] = Except.ok [] :=
  c7_bad_signature_empty infOk [0, 0, 0, 0] 0 rfl (by decide)

/-- Claim C8.  `a.xml` and `A.xsl` have the distinct basenames `a` and `A`
(last two conjuncts) and never pair, whatever the batch arrangement: in two
batches in either order, or in one batch in either order, the pair collection
stays empty. -/
theorem c8_basename_case_sensitive (eT eO : FSFile → String)
    (uz : FSFile → List FSFile) (now : Nat) :
    (runBatches eT eO uz now initialState [[aLowerXml], [aUpperXsl]]).fileStorage = []
    ∧ (runBatches eT eO uz now initialState [[aUpperXsl], [aLowerXml]]).fileStorage = []
    ∧ (runBatches eT eO uz now initialState [[aLowerXml, aUpperXsl]]).fileStorage = []
    ∧ (runBatches eT eO uz now initialState [[aUpperXsl, aLowerXml]]).fileStorage = []
    ∧ stripXmlExt aLowerXml.name = "a"
    ∧ stripXslExt aUpperXsl.name = "A" :=
  ⟨rfl, rfl, rfl, rfl, rfl, rfl⟩

/-- Claim C9.  `decompressZip` is not total: on every non-empty buffer of
fewer than four bytes the unguarded 4-byte signature read at offset 0 goes
out of bounds and the call throws the DataView range error instead of
returning the members collected so far. -/
theorem c9_short_buffer_throws (inflate : List Nat → Except String (List Nat))
    (buf : List Nat) (h1 : 0 < buf.length) (h2 : buf.length < 4) :
    decompressZip inflate buf = Except.error ZipErr.rangeError := by
  show zipWalk inflate buf (buf.length + 1) 0 [] = _
  rw [zipWalk_succ, if_pos h1]
  rw [getU32_none buf 0 (by omega)]

/-- Claim C9, witness: the one-byte buffer throws. -/
theorem c9_short_buffer_throws_witness :
    decompressZip infOk [0] = Except.error ZipErr.rangeError :=
  c9_short_buffer_throws infOk [0] (by decide) (by decide)

/-- Claim C10.  The clear action of the full-page pair view resets the pair
collection, the XSL cache and the XML pool but leaves the deduplication set
unchanged, so re-dropping a previously ingested file afterwards is silently
skipped and the whole state — in particular the empty pair collection — is
unchanged; the list-view clear, by contrast, also resets the deduplication
set. -/
theorem c10_pairview_clear_keeps_dedup (eT eO : FSFile → String)
    (uz : FSFile → List FSFile) (now : Nat) (s : ViewerState) (f : FSFile)
    (h : listHas s.processedFileKeys (fileKey f) = true) :
    (showPairClear s).processedFileKeys = s.processedFileKeys
    ∧ (showPairClear s).fileStorage = []
    ∧ (showPairClear s).xslCache = []
    ∧ (showPairClear s).xmlPool = []
    ∧ addFilesToStorage eT eO uz now (showPairClear s) [f] = showPairClear s
    ∧ (renderUIClear s).processedFileKeys = [] := by
  refine ⟨rfl, rfl, rfl, rfl, ?_, rfl⟩
  exact addFiles_dup eT eO uz now (showPairClear s) f h

/-- Claim C10, witness: after the pair-view clear of a state that has
ingested `A.xml`, re-dropping `A.xml` changes nothing. -/
theorem c10_pairview_clear_keeps_dedup_witness :
    addFilesToStorage eTc eOc uzc 0
      (showPairClear (ViewerState.mk [] 1 [] [] [fileKey axml])) [axml]
      = showPairClear (ViewerState.mk [] 1 [] [] [fileKey axml]) :=
  (c10_pairview_clear_keeps_dedup eTc eOc uzc 0
    (ViewerState.mk [] 1 [] [] [fileKey axml]) axml (by decide)).2.2.2.2.1
